import Mathlib

/-!
Verification development for the lexical and expression-syntax front end of the
lox-lang-rust repository (src/src/scanner.rs, src/src/scanner/token.rs,
src/src/scanner/token/literal.rs, src/src/parser.rs, src/src/expression.rs,
src/src/main.rs).

Modelling conventions:
* A Rust `String` is modelled as its character sequence (`Str := List Char`);
  `String::len` (a byte count) is modelled by summing the UTF-8 width of each
  character, and `str::get(a..b)` by `stringGet`, which fails exactly when the
  byte range is out of bounds, reversed, or not on character boundaries.
* `usize` values are `Nat`; the one subtraction that can underflow
  (`self.source.len() - 1` in `Scanner::is_at_end`) uses the wrapping
  (release-profile) semantics `usizeSub1`.
* Panics are explicit: computations return `Res`, whose `panicked` constructor
  carries the Rust panic message.  Loops take fuel; `diverge` reports fuel
  exhaustion, so genuine non-termination shows up as `diverge` for every fuel.
* The error-reporting collaborator (`Lox::error` / `Lox::report` and the
  `HAD_ERROR` flag in src/main.rs) is modelled as an accumulating list of
  `(line, message)` pairs inside the scanner state; a nonempty list models a
  set failure flag.  The printing itself is not modelled.
* `f64` number parsing (`value.parse()` in `Scanner::number`) is modelled as an
  exact rational parse of the plain decimal numerals this scanner can feed it
  (optional digits, optional dot and digits); exponents, signs and infinities
  never reach it from the scanner and are not modelled, and the rational value
  coincides with the parsed `f64` for the short numerals used in the claims.
-/

set_option maxRecDepth 40000

/-- A Rust `String` / `&str`, modelled as its sequence of characters. -/
abbrev Str := List Char

/-- UTF-8 byte width of a character (Rust `char::len_utf8`). -/
def charWidth (c : Char) : Nat :=
  if c.toNat < 0x80 then 1
  else if c.toNat < 0x800 then 2
  else if c.toNat < 0x10000 then 3
  else 4

/-- Rust `String::len`: the length in BYTES of the UTF-8 encoding. -/
def strLen (s : Str) : Nat := (s.map charWidth).sum

/-- Drop exactly `n` leading bytes; `none` when `n` overruns the string or
falls inside a multi-byte character (not a char boundary). -/
def dropBytes : Str → Nat → Option Str
  | s, 0 => some s
  | [], _ + 1 => none
  | c :: cs, n + 1 =>
    if charWidth c ≤ n + 1 then dropBytes cs (n + 1 - charWidth c) else none

/-- Take exactly `n` leading bytes; `none` when `n` overruns the string or
falls inside a multi-byte character (not a char boundary). -/
def takeBytes : Str → Nat → Option Str
  | _, 0 => some []
  | [], _ + 1 => none
  | c :: cs, n + 1 =>
    if charWidth c ≤ n + 1 then
      (takeBytes cs (n + 1 - charWidth c)).map (fun r => c :: r)
    else none

/-- Rust `str::get(a..b)`: the substring covering byte range `a..b`, or `none`
when the range is reversed, out of bounds, or not on character boundaries. -/
def stringGet (s : Str) (a b : Nat) : Option Str :=
  if a ≤ b then (dropBytes s a).bind (fun r => takeBytes r (b - a)) else none

/-- Wrapping (release-profile) `usize` decrement, for `source.len() - 1`
in `Scanner::is_at_end`: `(n + (2^64 - 1)) % 2^64`, which for the values a
`String::len` can take (always below `2^64`) is `n - 1` with wrap-around to
`2^64 - 1` at `n = 0`.  On a debug profile the underflow at `len = 0` panics
instead, but either way no token list is returned there. -/
def usizeSub1 (n : Nat) : Nat :=
  match n with
  | 0 => 2 ^ 64 - 1
  | m + 1 => m

/-- src/src/scanner/token/token_type (the `TokenType` enum used throughout). -/
inductive TokenType where
  | LEFT_PAREN | RIGHT_PAREN | LEFT_BRACE | RIGHT_BRACE
  | COMMA | DOT | MINUS | PLUS | SEMICOLON | SLASH | STAR
  | BANG | BANG_EQUAL | EQUAL | EQUAL_EQUAL
  | GREATER | GREATER_EQUAL | LESS | LESS_EQUAL
  | IDENTIFIER | STRING | NUMBER
  | AND | CLASS | ELSE | FALSE | FUN | FOR | IF | NIL | OR
  | PRINT | RETURN | SUPER | THIS | TRUE | VAR | WHILE
  | EOF
deriving DecidableEq, BEq

/-- src/src/scanner/token/literal.rs: the `Literal` payload enum; the `f64`
payload is modelled as an exact rational (see the header). -/
inductive Literal where
  | Bool (value : Bool)
  | Number (value : ℚ)
  | String (value : Str)
  | Nil
deriving DecidableEq

/-- src/src/scanner/token.rs: the `Token` record. `line` is `u32` in Rust,
modelled as `Nat` (no claim depends on `u32` wrap-around of `line`). -/
structure Token where
  token_type : TokenType
  lexeme : Str
  literal : Literal
  line : Nat
deriving DecidableEq

/-- Result of running a piece of scanner code: normal return, a Rust panic
with its message, or fuel exhaustion (`diverge`). -/
inductive Res (α : Type) where
  | ok (a : α)
  | panicked (msg : Str)
  | diverge
deriving DecidableEq

/-- Sequencing of scanner computations (panics and divergence propagate). -/
def Res.bind {α β : Type} : Res α → (α → Res β) → Res β
  | .ok a, f => f a
  | .panicked m, _ => .panicked m
  | .diverge, _ => .diverge

@[simp] theorem Res.bind_ok {α β : Type} (a : α) (f : α → Res β) :
    Res.bind (.ok a) f = f a := rfl

@[simp] theorem Res.bind_panicked {α β : Type} (m : Str) (f : α → Res β) :
    Res.bind (.panicked m) f = .panicked m := rfl

@[simp] theorem Res.bind_diverge {α β : Type} (f : α → Res β) :
    Res.bind (.diverge : Res α) f = .diverge := rfl

/-- Inversion: a bind that returned normally has a normal first component. -/
theorem Res.bind_ok_inv {α β : Type} {x : Res α} {k : α → Res β} {b : β}
    (h : Res.bind x k = .ok b) : ∃ a, x = .ok a ∧ k a = .ok b := by
  cases x with
  | ok a => exact ⟨a, rfl, h⟩
  | panicked m => exact Res.noConfusion h
  | diverge => exact Res.noConfusion h

/-- src/src/scanner.rs: the `Scanner` struct.  The `keywords` map is a fixed
table (see `reserved`) and is kept outside the state; the `errors` field
models the calls made to the external error collaborator `Lox::error`
(src/main.rs) together with the `HAD_ERROR` flag (nonempty ↔ flag set). -/
structure Scanner where
  source : Str
  tokens : List Token
  start : Nat
  current : Nat
  line : Nat
  errors : List (Nat × Str)
deriving DecidableEq

/-- `Scanner::new`: fields `start = 0`, `current = 0`, `line = 1`. -/
def Scanner.new (source : Str) : Scanner :=
  ⟨source, [], 0, 0, 1, []⟩

/-- The reserved-word table built in `Scanner::new` (a `HashMap`; modelled as
an association list with the same unique keys). -/
def reserved : List (Str × TokenType) :=
  [ (("and").toList, .AND), (("class").toList, .CLASS),
    (("else").toList, .ELSE), (("false").toList, .FALSE),
    (("for").toList, .FOR), (("fun").toList, .FUN),
    (("if").toList, .IF), (("nil").toList, .NIL),
    (("or").toList, .OR), (("print").toList, .PRINT),
    (("return").toList, .RETURN), (("super").toList, .SUPER),
    (("this").toList, .THIS), (("true").toList, .TRUE),
    (("var").toList, .VAR), (("while").toList, .WHILE) ]

/-- `self.keywords.get_key_value(text)` on the fixed table. -/
def keywordLookup (text : Str) : Option TokenType :=
  reserved.lookup text

/-- `Lox::error` (src/main.rs): records `(line, message)` on the diagnostic
stream and sets the failure flag; modelled by appending to `errors`. -/
def lox_error (s : Scanner) (line : Nat) (message : Str) : Scanner :=
  { s with errors := s.errors ++ [(line, message)] }

/-- `Scanner::is_at_end`: `self.current >= self.source.len() - 1`
(note: `len()` counts bytes, `current` counts consumed characters, and the
subtraction is off by one with wrapping semantics at `len = 0`). -/
def Scanner.is_at_end (s : Scanner) : Bool :=
  decide (usizeSub1 (strLen s.source) ≤ s.current)

/-- `Scanner::advance`: `self.source.chars().nth(self.current)`, incrementing
`current` on success and panicking otherwise. -/
def Scanner.advance (s : Scanner) : Res (Char × Scanner) :=
  match s.source.get? s.current with
  | some c => .ok (c, { s with current := s.current + 1 })
  | none => .panicked ("Failed to advance!").toList

/-- `Scanner::match_token`: consume the current character only if it is the
expected one.  Faithful quirk: when `chars().nth(current)` is `None` (possible
when the character cursor passed the character count without reaching the
byte-based end test), the `if let` pattern simply fails and control falls
through to `self.current += 1; return true`. -/
def Scanner.match_token (s : Scanner) (expected : Char) : Bool × Scanner :=
  if Scanner.is_at_end s then (false, s)
  else
    match s.source.get? s.current with
    | some c =>
      if c != expected then (false, s)
      else (true, { s with current := s.current + 1 })
    | none => (true, { s with current := s.current + 1 })

/-- `Scanner::peek`: current character without consuming; `'\0'` at the
(byte-tested) end; panics with an empty message when `nth` fails. -/
def Scanner.peek (s : Scanner) : Res Char :=
  if Scanner.is_at_end s then .ok '\x00'
  else
    match s.source.get? s.current with
    | some c => .ok c
    | none => .panicked []

/-- `Scanner::peek_next`: one character of extra lookahead; `'\0'` when
`current + 1` reaches the byte length. -/
def Scanner.peek_next (s : Scanner) : Res Char :=
  if strLen s.source ≤ s.current + 1 then .ok '\x00'
  else
    match s.source.get? (s.current + 1) with
    | some c => .ok c
    | none => .panicked ("Failed to peek next char in source!").toList

/-- `Scanner::is_alpha`. -/
def Scanner.is_alpha (c : Char) : Bool :=
  (decide (('a').toNat ≤ c.toNat) && decide (c.toNat ≤ ('z').toNat)) ||
  (decide (('A').toNat ≤ c.toNat) && decide (c.toNat ≤ ('Z').toNat)) ||
  c == '_'

/-- `Scanner::is_digit`. -/
def Scanner.is_digit (c : Char) : Bool :=
  decide (('0').toNat ≤ c.toNat) && decide (c.toNat ≤ ('9').toNat)

/-- `Scanner::is_alpha_numeric`. -/
def Scanner.is_alpha_numeric (c : Char) : Bool :=
  Scanner.is_alpha c || Scanner.is_digit c

/-- `Scanner::add_token_complete`: push a token whose lexeme is the byte
substring `source[start..current]`; when that slice lookup fails the `if let`
silently adds nothing. -/
def Scanner.add_token_complete (s : Scanner) (token_type : TokenType)
    (literal : Literal) : Scanner :=
  match stringGet s.source s.start s.current with
  | some text => { s with tokens := s.tokens ++ [Token.mk token_type text literal s.line] }
  | none => s

/-- `Scanner::add_token`. -/
def Scanner.add_token (s : Scanner) (token_type : TokenType) : Scanner :=
  Scanner.add_token_complete s token_type .Nil

/-- The shared shape of the scanner's `while p(self.peek()) { self.advance(); }`
loops (`Scanner::identifier` and the two digit runs of `Scanner::number`).
Fuel is consumed once per iteration. -/
def Scanner.consumeWhile (p : Char → Bool) : Nat → Scanner → Res Scanner
  | 0, s =>
    Res.bind (Scanner.peek s) (fun c => if p c then .diverge else .ok s)
  | g + 1, s =>
    Res.bind (Scanner.peek s) (fun c =>
      if p c then
        Res.bind (Scanner.advance s) (fun r => Scanner.consumeWhile p g r.2)
      else .ok s)

/-- The loop of `Scanner::string`:
`while self.peek() != '"' && !self.is_at_end()`; faithful quirk: on a newline
it increments `line` but does NOT advance, so it spins forever there. -/
def Scanner.stringLoop : Nat → Scanner → Res Scanner
  | 0, s =>
    Res.bind (Scanner.peek s) (fun c =>
      if c != '\x22' && !Scanner.is_at_end s then .diverge else .ok s)
  | g + 1, s =>
    Res.bind (Scanner.peek s) (fun c =>
      if c != '\x22' && !Scanner.is_at_end s then
        if c == '\n' then Scanner.stringLoop g { s with line := s.line + 1 }
        else Res.bind (Scanner.advance s) (fun r => Scanner.stringLoop g r.2)
      else .ok s)

/-- The tail of `Scanner::string` after its loop: unterminated-string error,
or consume the closing quote and emit the STRING token; the literal payload is
the byte slice strictly between the quotes, and when that slice lookup fails
the `if let` silently emits nothing. -/
def Scanner.string_finish (s : Scanner) : Res Scanner :=
  if Scanner.is_at_end s then
    .ok (lox_error s s.line ("Unterminated string.").toList)
  else
    Res.bind (Scanner.advance s) (fun r =>
      match stringGet r.2.source (r.2.start + 1) (r.2.current - 1) with
      | some value => .ok (Scanner.add_token_complete r.2 .STRING (.String value))
      | none => .ok r.2)

/-- `Scanner::string`. -/
def Scanner.string (fuel : Nat) (s : Scanner) : Res Scanner :=
  Res.bind (Scanner.stringLoop fuel s) Scanner.string_finish

/-- Numeric value of a run of decimal digits. -/
def natOfDigits (l : Str) : Nat :=
  l.foldl (fun n c => 10 * n + (c.toNat - ('0').toNat)) 0

/-- Models Rust `str::parse::<f64>()` on the inputs `Scanner::number` can feed
it: an optional run of digits, an optional dot with a further digit run, at
least one digit overall; the value is kept as an exact rational (see the file
header).  Anything else — which from this scanner only arises on byte slices
scrambled by multi-byte input — is a parse failure (`none`). -/
def parseF64 (s : Str) : Option ℚ :=
  let intPart := s.takeWhile Scanner.is_digit
  let rest := s.dropWhile Scanner.is_digit
  match rest with
  | [] => if intPart = [] then none else some (natOfDigits intPart : ℚ)
  | '.' :: frac =>
    if frac.all Scanner.is_digit ∧ (intPart ≠ [] ∨ frac ≠ []) then
      some ((natOfDigits intPart : ℚ) +
        (natOfDigits frac : ℚ) / ((10 : ℚ) ^ frac.length))
    else none
  | _ => none

/-- The tail of `Scanner::number` after its digit runs: slice the lexeme,
parse it, emit a NUMBER token, panicking where the Rust code panics. -/
def Scanner.number_finish (s : Scanner) : Res Scanner :=
  match stringGet s.source s.start s.current with
  | some value =>
    match parseF64 value with
    | some n => .ok (Scanner.add_token_complete s .NUMBER (.Number n))
    | none => .panicked ("Failed to convert to number!").toList
  | none => .panicked ("Failed to get substring from source!").toList

/-- `Scanner::number`: a digit run, then optionally a dot followed by a digit
and another digit run (the lookahead order `peek_next` then `peek` follows the
source). -/
def Scanner.number (fuel : Nat) (s : Scanner) : Res Scanner :=
  Res.bind (Scanner.consumeWhile Scanner.is_digit fuel s) (fun s =>
    Res.bind (Scanner.peek_next s) (fun c =>
      Res.bind (Scanner.peek s) (fun pk =>
        if pk == '.' && Scanner.is_digit c then
          Res.bind (Scanner.advance s) (fun r =>
            Res.bind (Scanner.consumeWhile Scanner.is_digit fuel r.2)
              Scanner.number_finish)
        else Scanner.number_finish s)))

/-- `Scanner::identifier`: a run of alphanumerics, then keyword lookup on the
byte slice of the lexeme (panicking when the slice lookup fails). -/
def Scanner.identifier (fuel : Nat) (s : Scanner) : Res Scanner :=
  Res.bind (Scanner.consumeWhile Scanner.is_alpha_numeric fuel s) (fun s =>
    match stringGet s.source s.start s.current with
    | some text =>
      match keywordLookup text with
      | some v => .ok (Scanner.add_token s v)
      | none => .ok (Scanner.add_token s .IDENTIFIER)
    | none => .panicked ("Failed to get identifier!").toList)

/-- The line-comment loop of `Scanner::scan_token`:
`while self.peek() != '\n' && !self.is_at_end() { self.advance(); }`. -/
def Scanner.lineCommentLoop : Nat → Scanner → Res Scanner
  | 0, s =>
    Res.bind (Scanner.peek s) (fun c =>
      if c != '\n' && !Scanner.is_at_end s then .diverge else .ok s)
  | g + 1, s =>
    Res.bind (Scanner.peek s) (fun c =>
      if c != '\n' && !Scanner.is_at_end s then
        Res.bind (Scanner.advance s) (fun r => Scanner.lineCommentLoop g r.2)
      else .ok s)

/-- The block-comment loop of `Scanner::scan_token`: stop after consuming the
first `*/`; otherwise `match_token('\n')` (incrementing `line` on success)
then one more `advance` per iteration. -/
def Scanner.blockCommentLoop : Nat → Scanner → Res Scanner
  | 0, s => if Scanner.is_at_end s then .ok s else .diverge
  | g + 1, s =>
    if Scanner.is_at_end s then .ok s
    else
      Res.bind (Scanner.peek s) (fun c =>
        Res.bind
          (if c == '*' then
            Res.bind (Scanner.peek_next s) (fun c2 => .ok (c2 == '/'))
          else .ok false) (fun hit =>
          if hit then
            Res.bind (Scanner.advance s) (fun r1 =>
              Res.bind (Scanner.advance r1.2) (fun r2 => .ok r2.2))
          else
            let m := Scanner.match_token s '\n'
            let s1 := if m.1 then { m.2 with line := m.2.line + 1 } else m.2
            Res.bind (Scanner.advance s1) (fun r =>
              Scanner.blockCommentLoop g r.2)))

/-- The four identical one-character-lookahead blocks of `Scanner::scan_token`
for `!`, `=`, `<`, `>`: `match_token('=')` picks the two- or one-character
token type. -/
def Scanner.twoCharOp (s : Scanner) (two one : TokenType) : Res Scanner :=
  let m := Scanner.match_token s '='
  .ok (Scanner.add_token m.2 (if m.1 then two else one))

/-- The `/` arm of `Scanner::scan_token`: line comment, block comment, or the
SLASH token. -/
def Scanner.slashCase (fuel : Nat) (s : Scanner) : Res Scanner :=
  if (Scanner.match_token s '/').1 then
    Scanner.lineCommentLoop fuel (Scanner.match_token s '/').2
  else if (Scanner.match_token (Scanner.match_token s '/').2 '*').1 then
    Scanner.blockCommentLoop fuel
      (Scanner.match_token (Scanner.match_token s '/').2 '*').2
  else
    .ok (Scanner.add_token
      (Scanner.match_token (Scanner.match_token s '/').2 '*').2 .SLASH)

/-- `Scanner::scan_token`: advance once and dispatch on the character just
consumed (`r.1`; `r.2` is the state after consuming it), mirroring the Rust
`match` arm for arm, including the grouped whitespace arm and the
digit/alpha/unexpected-character wildcard arm. -/
def Scanner.scan_token (fuel : Nat) (s : Scanner) : Res Scanner :=
  Res.bind (Scanner.advance s) (fun r =>
    match r.1 with
    | '(' => .ok (Scanner.add_token r.2 .LEFT_PAREN)
    | ')' => .ok (Scanner.add_token r.2 .RIGHT_PAREN)
    | '\x7b' => .ok (Scanner.add_token r.2 .LEFT_BRACE)
    | '\x7d' => .ok (Scanner.add_token r.2 .RIGHT_BRACE)
    | ',' => .ok (Scanner.add_token r.2 .COMMA)
    | '.' => .ok (Scanner.add_token r.2 .DOT)
    | '-' => .ok (Scanner.add_token r.2 .MINUS)
    | '+' => .ok (Scanner.add_token r.2 .PLUS)
    | ';' => .ok (Scanner.add_token r.2 .SEMICOLON)
    | '*' => .ok (Scanner.add_token r.2 .STAR)
    | '!' => Scanner.twoCharOp r.2 .BANG_EQUAL .BANG
    | '=' => Scanner.twoCharOp r.2 .EQUAL_EQUAL .EQUAL
    | '<' => Scanner.twoCharOp r.2 .LESS_EQUAL .LESS
    | '>' => Scanner.twoCharOp r.2 .GREATER_EQUAL .GREATER
    | '/' => Scanner.slashCase fuel r.2
    | ' ' | '\x0d' | '\t' => .ok r.2
    | '\n' => .ok { r.2 with line := r.2.line + 1 }
    | '\x22' => Scanner.string fuel r.2
    | c =>
      if Scanner.is_digit c then Scanner.number fuel r.2
      else if Scanner.is_alpha c then Scanner.identifier fuel r.2
      else .ok (lox_error r.2 r.2.line ("Unexpected character.").toList))

/-- The `while !self.is_at_end()` loop of `Scanner::scan_tokens`: set
`start = current`, scan one token, repeat.  Fuel is consumed once per
iteration, so a run that exits normally succeeds for every sufficient fuel. -/
def Scanner.scanLoop : Nat → Scanner → Res Scanner
  | 0, s => if Scanner.is_at_end s then .ok s else .diverge
  | g + 1, s =>
    if Scanner.is_at_end s then .ok s
    else
      Res.bind (Scanner.scan_token g { s with start := s.current })
        (Scanner.scanLoop g)

/-- `Scanner::scan_tokens`: run the loop, append the EOF token (empty lexeme,
`Nil` literal, current line), and return a copy of the accumulated vector
together with the final scanner state. -/
def Scanner.scan_tokens (fuel : Nat) (s : Scanner) : Res (List Token × Scanner) :=
  Res.bind (Scanner.scanLoop fuel s) (fun s0 =>
    let s1 := { s0 with tokens := s0.tokens ++ [Token.mk .EOF [] .Nil s0.line] }
    .ok (s1.tokens, s1))

/-- src/src/expression.rs: the closed Expression variant family (the visitor
plumbing of the Rust file is dispatch-only and carries no data; the `new`
constructors are the inductive's constructors). -/
inductive Expression where
  | Assign (name : Token) (value : Expression)
  | Binary (left : Expression) (operator : Token) (right : Expression)
  | Call (callee : Expression) (paren : Token) (arguments : List Expression)
  | Get (object : Expression) (name : Token)
  | Grouping (expression : Expression)
  | Literal (value : Literal)
  | Logical (left : Expression) (operator : Token) (right : Expression)
  | Set (object : Expression) (name : Token) (value : Expression)
  | Super (keyword : Token) (method : Token)
  | This (keyword : Token)
  | Unary (operator : Token) (right : Expression)
  | Variable (name : Token)

/-- Modelled from the spec: section 4.3 and 7 — a ParseError carries the token
at which the expectation failed and a human-readable message (src/parser.rs
has no error type at all; its `consume` and `primary` are missing their
failure branches and the file is not complete Rust). -/
structure ParseError where
  token : Token
  message : Str
deriving DecidableEq

/-- Result of running parser code: normal return, a ParseError (spec section
4.3: a ParseError aborts the current parse call), a Rust panic (out-of-bounds
token indexing), or fuel exhaustion. -/
inductive PRes (α : Type) where
  | ok (a : α)
  | err (e : ParseError)
  | ppanic
  | diverge
deriving DecidableEq

/-- Sequencing of parser computations. -/
def PRes.bind {α β : Type} : PRes α → (α → PRes β) → PRes β
  | .ok a, f => f a
  | .err e, _ => .err e
  | .ppanic, _ => .ppanic
  | .diverge, _ => .diverge

@[simp] theorem PRes.ok_bind {α β : Type} (a : α) (f : α → PRes β) :
    PRes.bind (.ok a) f = f a := rfl

@[simp] theorem PRes.err_bind {α β : Type} (e : ParseError) (f : α → PRes β) :
    PRes.bind (.err e) f = .err e := rfl

/-- src/src/parser.rs: the `Parser` struct (`current` is `u32`, modelled as
`Nat`). -/
structure Parser where
  tokens : List Token
  current : Nat
deriving DecidableEq

/-- `Parser::new`. -/
def Parser.new (tokens : List Token) : Parser := ⟨tokens, 0⟩

/-- `Parser::peek`: `self.tokens[self.current]`; `none` models the
out-of-bounds index panic. -/
def Parser.peek (p : Parser) : Option Token :=
  p.tokens.get? p.current

/-- `Parser::previous`: `self.tokens[self.current - 1]`; at `current = 0`
the `u32` subtraction underflows and the indexing panics either way (`none`). -/
def Parser.previous (p : Parser) : Option Token :=
  if p.current = 0 then none else p.tokens.get? (p.current - 1)

/-- `Parser::is_at_end`: the current token is the EOF sentinel. -/
def Parser.is_at_end (p : Parser) : PRes Bool :=
  match Parser.peek p with
  | some t => .ok (t.token_type == .EOF)
  | none => .ppanic

/-- `Parser::check`: false at EOF, else compare the current token's type. -/
def Parser.check (p : Parser) (token_type : TokenType) : PRes Bool :=
  PRes.bind (Parser.is_at_end p) (fun b =>
    if b then .ok false
    else
      match Parser.peek p with
      | some t => .ok (t.token_type == token_type)
      | none => .ppanic)

/-- `Parser::advance`: move the cursor unless at EOF, then return
`previous()`. -/
def Parser.advance (p : Parser) : PRes (Token × Parser) :=
  PRes.bind (Parser.is_at_end p) (fun b =>
    let p1 := if b then p else { p with current := p.current + 1 }
    match Parser.previous p1 with
    | some t => .ok (t, p1)
    | none => .ppanic)

/-- `Parser::match_tokens`: try each candidate type in order; on the first
`check` success consume the token and return true, else consume nothing. -/
def Parser.match_tokens (p : Parser) : List TokenType → PRes (Bool × Parser)
  | [] => .ok (false, p)
  | token_type :: rest =>
    PRes.bind (Parser.check p token_type) (fun b =>
      if b then PRes.bind (Parser.advance p) (fun r => .ok (true, r.2))
      else Parser.match_tokens p rest)

/-- `Parser::consume`: advance over the expected token type.  The failure
branch is Modelled from the spec: failing to find the expected token "is a
ParseError naming the unmet expectation and the token at which it failed"
(src/parser.rs leaves `consume` without an else branch). -/
def Parser.consume (p : Parser) (token_type : TokenType) (message : Str) :
    PRes (Token × Parser) :=
  PRes.bind (Parser.check p token_type) (fun b =>
    if b then Parser.advance p
    else
      match Parser.peek p with
      | some t => .err (ParseError.mk t message)
      | none => .ppanic)

mutual

/-- Modelled from the spec: the `expression` rule entered by
`Parser::primary`; src/parser.rs calls `self.expression()` but never defines
it, and the spec grammar's lowest-precedence rule is `equality`. -/
def Parser.expression : Nat → Parser → PRes (Expression × Parser)
  | 0, _ => .diverge
  | g + 1, p => Parser.equality g p

/-- `Parser::equality`: `comparison ( ("!=" | "==") comparison )*`. -/
def Parser.equality : Nat → Parser → PRes (Expression × Parser)
  | 0, _ => .diverge
  | g + 1, p =>
    PRes.bind (Parser.comparison g p) (fun r =>
      Parser.equalityLoop g r.1 r.2)

/-- The `while` of `Parser::equality`, folding left-associated Binary nodes. -/
def Parser.equalityLoop : Nat → Expression → Parser → PRes (Expression × Parser)
  | 0, _, _ => .diverge
  | g + 1, e, p =>
    PRes.bind (Parser.match_tokens p [.BANG_EQUAL, .EQUAL_EQUAL]) (fun m =>
      if m.1 then
        match Parser.previous m.2 with
        | some op =>
          PRes.bind (Parser.comparison g m.2) (fun r =>
            Parser.equalityLoop g (Expression.Binary e op r.1) r.2)
        | none => .ppanic
      else .ok (e, m.2))

/-- `Parser::comparison`: `term ( (">" | ">=" | "<" | "<=") term )*`. -/
def Parser.comparison : Nat → Parser → PRes (Expression × Parser)
  | 0, _ => .diverge
  | g + 1, p =>
    PRes.bind (Parser.term g p) (fun r =>
      Parser.comparisonLoop g r.1 r.2)

/-- The `while` of `Parser::comparison`. -/
def Parser.comparisonLoop : Nat → Expression → Parser → PRes (Expression × Parser)
  | 0, _, _ => .diverge
  | g + 1, e, p =>
    PRes.bind (Parser.match_tokens p
        [.GREATER, .GREATER_EQUAL, .LESS, .LESS_EQUAL]) (fun m =>
      if m.1 then
        match Parser.previous m.2 with
        | some op =>
          PRes.bind (Parser.term g m.2) (fun r =>
            Parser.comparisonLoop g (Expression.Binary e op r.1) r.2)
        | none => .ppanic
      else .ok (e, m.2))

/-- `Parser::term`: `factor ( ("-" | "+") factor )*`. -/
def Parser.term : Nat → Parser → PRes (Expression × Parser)
  | 0, _ => .diverge
  | g + 1, p =>
    PRes.bind (Parser.factor g p) (fun r =>
      Parser.termLoop g r.1 r.2)

/-- The `while` of `Parser::term`. -/
def Parser.termLoop : Nat → Expression → Parser → PRes (Expression × Parser)
  | 0, _, _ => .diverge
  | g + 1, e, p =>
    PRes.bind (Parser.match_tokens p [.MINUS, .PLUS]) (fun m =>
      if m.1 then
        match Parser.previous m.2 with
        | some op =>
          PRes.bind (Parser.factor g m.2) (fun r =>
            Parser.termLoop g (Expression.Binary e op r.1) r.2)
        | none => .ppanic
      else .ok (e, m.2))

/-- `Parser::factor`: `unary ( ("/" | "*") unary )*`. -/
def Parser.factor : Nat → Parser → PRes (Expression × Parser)
  | 0, _ => .diverge
  | g + 1, p =>
    PRes.bind (Parser.unary g p) (fun r =>
      Parser.factorLoop g r.1 r.2)

/-- The `while` of `Parser::factor`. -/
def Parser.factorLoop : Nat → Expression → Parser → PRes (Expression × Parser)
  | 0, _, _ => .diverge
  | g + 1, e, p =>
    PRes.bind (Parser.match_tokens p [.SLASH, .STAR]) (fun m =>
      if m.1 then
        match Parser.previous m.2 with
        | some op =>
          PRes.bind (Parser.unary g m.2) (fun r =>
            Parser.factorLoop g (Expression.Binary e op r.1) r.2)
        | none => .ppanic
      else .ok (e, m.2))

/-- `Parser::unary`: `("!" | "-") unary | primary`, right-recursive. -/
def Parser.unary : Nat → Parser → PRes (Expression × Parser)
  | 0, _ => .diverge
  | g + 1, p =>
    PRes.bind (Parser.match_tokens p [.BANG, .MINUS]) (fun m =>
      if m.1 then
        match Parser.previous m.2 with
        | some op =>
          PRes.bind (Parser.unary g m.2) (fun r =>
            .ok (Expression.Unary op r.1, r.2))
        | none => .ppanic
      else Parser.primary g m.2)

/-- `Parser::primary`: literals, then a parenthesized group requiring `)` via
`consume`.  The final fallthrough (src/parser.rs simply runs out of branches
there, which is not complete Rust) is Modelled from the spec: "at `primary`,
if none of the literal, grouping, or expected tokens match, this is a
ParseError (expected expression) at the current token". -/
def Parser.primary : Nat → Parser → PRes (Expression × Parser)
  | 0, _ => .diverge
  | g + 1, p =>
    PRes.bind (Parser.match_tokens p [.FALSE]) (fun m1 =>
      if m1.1 then .ok (Expression.Literal (.Bool false), m1.2)
      else
        PRes.bind (Parser.match_tokens m1.2 [.TRUE]) (fun m2 =>
          if m2.1 then .ok (Expression.Literal (.Bool true), m2.2)
          else
            PRes.bind (Parser.match_tokens m2.2 [.NIL]) (fun m3 =>
              if m3.1 then .ok (Expression.Literal .Nil, m3.2)
              else
                PRes.bind (Parser.match_tokens m3.2 [.NUMBER, .STRING]) (fun m4 =>
                  if m4.1 then
                    match Parser.previous m4.2 with
                    | some t => .ok (Expression.Literal t.literal, m4.2)
                    | none => .ppanic
                  else
                    PRes.bind (Parser.match_tokens m4.2 [.LEFT_PAREN]) (fun m5 =>
                      if m5.1 then
                        PRes.bind (Parser.expression g m5.2) (fun r =>
                          PRes.bind (Parser.consume r.2 .RIGHT_PAREN
                              ("Expect \x27)\x27 after expression.").toList) (fun rc =>
                            .ok (Expression.Grouping r.1, rc.2)))
                      else
                        match Parser.peek m5.2 with
                        | some t =>
                          .err (ParseError.mk t ("expected expression").toList)
                        | none => .ppanic)))))

end

/-- Modelled from the spec: section 4.3 — the contract
`parse_expression(tokens) -> Expression`, raising ParseError; the captured
src/parser.rs has no such entry point, so it is the spec's driver: a fresh
cursor over the token sequence, entering the grammar at its lowest-precedence
rule. -/
def Parser.parse_expression (fuel : Nat) (tokens : List Token) :
    PRes (Expression × Parser) :=
  Parser.expression fuel (Parser.new tokens)

/-! ### Concrete inputs used by the claims -/

/-- The three-character source `1+2`. -/
def srcOnePlusTwo : Str := ['1', '+', '2']

/-- The source `!=` (lookahead target as the final character). -/
def srcBangEq : Str := ['!', '=']

/-- The source `!=x`. -/
def srcBangEqX : Str := ['!', '=', 'x']

/-- The unterminated string literal source (a quote then `abc`). -/
def srcUnterminated : Str := ['\x22', 'a', 'b', 'c']

/-- The source `1 + 2 * 3`. -/
def srcArith : Str := ("1 + 2 * 3").toList

/-- The source `(1 + 2`. -/
def srcGroup : Str := ("(1 + 2").toList

/-- A string literal containing a three-byte character, then a bang:
six bytes but only four characters. -/
def srcQuotedEuroBang : Str := ['\x22', '€', '\x22', '!']

/-- A string literal containing a newline (then closed, with a trailing
character). -/
def srcNewlineString : Str := ['\x22', '\n', '\x22', 'x']

/-- The source `+x`. -/
def srcPlusX : Str := ['+', 'x']

/-- The scanner state reached just after the opening quote of
`srcNewlineString`, with the cursor parked on the embedded newline;
only `line` varies while the string loop spins. -/
def nlState (line : Nat) : Scanner := ⟨srcNewlineString, [], 0, 1, line, []⟩

/-- The string loop never leaves the newline: each iteration only increments
`line` (the `'\n'` arm of `Scanner::string` does not advance), so every
amount of fuel is exhausted. -/
theorem stringLoop_newline_diverges (f : Nat) :
    ∀ line, Scanner.stringLoop f (nlState line) = .diverge := by
  induction f with
  | zero =>
    intro line
    simp +decide [Scanner.stringLoop, Scanner.peek, Scanner.is_at_end, nlState,
      srcNewlineString, strLen, charWidth, usizeSub1]
  | succ g ih =>
    intro line
    simp +decide [Scanner.stringLoop, Scanner.peek, Scanner.is_at_end, nlState,
      srcNewlineString, strLen, charWidth, usizeSub1]
    exact ih (line + 1)

/-- The divergence propagates from the string loop to `scan_tokens`. -/
theorem scan_tokens_newline_diverges (f : Nat) :
    Scanner.scan_tokens f (Scanner.new srcNewlineString) = .diverge := by
  cases f with
  | zero => rfl
  | succ g =>
    have h1 : Scanner.scan_token g { Scanner.new srcNewlineString with start := 0 }
        = Res.bind (Scanner.stringLoop g (nlState 1)) Scanner.string_finish := rfl
    have h3 : Scanner.scan_token g { Scanner.new srcNewlineString with start := 0 }
        = .diverge := by
      rw [h1, stringLoop_newline_diverges g 1]
      rfl
    have h4 : Scanner.scanLoop (g + 1) (Scanner.new srcNewlineString)
        = Res.bind
            (Scanner.scan_token g { Scanner.new srcNewlineString with start := 0 })
            (Scanner.scanLoop g) := rfl
    have h5 : Scanner.scanLoop (g + 1) (Scanner.new srcNewlineString) = .diverge := by
      rw [h4, h3]
      rfl
    unfold Scanner.scan_tokens
    rw [h5]
    rfl

/-- C1: claimed — for every finite input, `scan_tokens` terminates and
returns a token list whose last element is the unique EOF token with empty
lexeme.  The code violates the claim: on a string literal containing a
newline the string loop increments `line` without advancing and spins
forever (every fuel diverges), and on the empty input `is_at_end`'s
`len() - 1` underflows so `advance` runs off the end and panics — no token
list is returned in either case. -/
theorem C1_scan_tokens_not_total :
    (∀ fuel, Scanner.scan_tokens fuel (Scanner.new srcNewlineString) = .diverge) ∧
    Scanner.scan_tokens 9 (Scanner.new []) = .panicked ("Failed to advance!").toList :=
  ⟨scan_tokens_newline_diverges, by decide⟩

/-- C2: claimed — scanning `1+2` yields `[NUMBER 1, PLUS, NUMBER 2, EOF]`.
The code violates the claim: `is_at_end` tests `current >= len() - 1`, so the
loop stops one character early and the final `2` is never scanned; the result
is `[NUMBER 1, PLUS, EOF]` with no second NUMBER token. -/
theorem C2_scan_one_plus_two_drops_last :
    Scanner.scan_tokens 99 (Scanner.new srcOnePlusTwo) =
      .ok ([Token.mk .NUMBER ['1'] (.Number 1) 1,
            Token.mk .PLUS ['+'] .Nil 1,
            Token.mk .EOF [] .Nil 1],
        ⟨srcOnePlusTwo,
          [Token.mk .NUMBER ['1'] (.Number 1) 1,
           Token.mk .PLUS ['+'] .Nil 1,
           Token.mk .EOF [] .Nil 1], 1, 2, 1, []⟩) := by
  decide

/-- C3: claimed — after `!`, `=`, `<`, `>`, if the next character is `=` it
is consumed and the two-character operator token is emitted.  The code
violates the claim when that `=` is the final character: `match_token` first
asks `is_at_end`, whose off-by-one already reports true there, so `!=` scans
to a lone BANG with the `=` unconsumed (first conjunct); with any further
character the claimed lookahead behaviour does occur (second conjunct). -/
theorem C3_lookahead_misses_final_equals :
    Scanner.scan_tokens 99 (Scanner.new srcBangEq) =
      .ok ([Token.mk .BANG ['!'] .Nil 1, Token.mk .EOF [] .Nil 1],
        ⟨srcBangEq, [Token.mk .BANG ['!'] .Nil 1, Token.mk .EOF [] .Nil 1],
          0, 1, 1, []⟩) ∧
    Scanner.scan_tokens 99 (Scanner.new srcBangEqX) =
      .ok ([Token.mk .BANG_EQUAL ['!', '='] .Nil 1, Token.mk .EOF [] .Nil 1],
        ⟨srcBangEqX, [Token.mk .BANG_EQUAL ['!', '='] .Nil 1,
          Token.mk .EOF [] .Nil 1], 0, 2, 1, []⟩) := by
  decide

/-- C4: claimed — scanning the unterminated `"abc` records exactly one
LexError, leaves the scan position at end of input, emits no STRING token,
and still produces EOF.  The code records the single error, emits no STRING
token and produces EOF, but the scan position is left at `current = 3` while
the input is 4 bytes (and 4 characters) long: the final `c` is never reached
because `is_at_end`'s `len() - 1` test fires a character early. -/
theorem C4_unterminated_string_stops_early :
    Scanner.scan_tokens 99 (Scanner.new srcUnterminated) =
      .ok ([Token.mk .EOF [] .Nil 1],
        ⟨srcUnterminated, [Token.mk .EOF [] .Nil 1], 0, 3, 1,
          [(1, ("Unterminated string.").toList)]⟩) ∧
    strLen srcUnterminated = 4 ∧ srcUnterminated.length = 4 := by
  decide

/-- C7: claimed — parsing the tokens scanned from `1 + 2 * 3` yields
`Binary(+, 1, Binary(*, 2, 3))`.  The code violates the claim: the scanner
drops the trailing `3` (first conjunct), so parsing its output dies with the
expected-expression ParseError at EOF (second conjunct); on the full token
sequence the claim's precedence-correct tree is exactly what the parser
builds (third conjunct), isolating the failure in the scanner. -/
theorem C7_precedence_parse_blocked_by_scanner :
    Scanner.scan_tokens 99 (Scanner.new srcArith) =
      .ok ([Token.mk .NUMBER ['1'] (.Number 1) 1,
            Token.mk .PLUS ['+'] .Nil 1,
            Token.mk .NUMBER ['2'] (.Number 2) 1,
            Token.mk .STAR ['*'] .Nil 1,
            Token.mk .EOF [] .Nil 1],
        ⟨srcArith,
          [Token.mk .NUMBER ['1'] (.Number 1) 1,
           Token.mk .PLUS ['+'] .Nil 1,
           Token.mk .NUMBER ['2'] (.Number 2) 1,
           Token.mk .STAR ['*'] .Nil 1,
           Token.mk .EOF [] .Nil 1], 7, 8, 1, []⟩) ∧
    Parser.parse_expression 99
      [Token.mk .NUMBER ['1'] (.Number 1) 1,
       Token.mk .PLUS ['+'] .Nil 1,
       Token.mk .NUMBER ['2'] (.Number 2) 1,
       Token.mk .STAR ['*'] .Nil 1,
       Token.mk .EOF [] .Nil 1] =
      .err (ParseError.mk (Token.mk .EOF [] .Nil 1)
        ("expected expression").toList) ∧
    Parser.parse_expression 99
      [Token.mk .NUMBER ['1'] (.Number 1) 1,
       Token.mk .PLUS ['+'] .Nil 1,
       Token.mk .NUMBER ['2'] (.Number 2) 1,
       Token.mk .STAR ['*'] .Nil 1,
       Token.mk .NUMBER ['3'] (.Number 3) 1,
       Token.mk .EOF [] .Nil 1] =
      .ok (Expression.Binary
            (Expression.Literal (.Number 1))
            (Token.mk .PLUS ['+'] .Nil 1)
            (Expression.Binary
              (Expression.Literal (.Number 2))
              (Token.mk .STAR ['*'] .Nil 1)
              (Expression.Literal (.Number 3))),
        ⟨[Token.mk .NUMBER ['1'] (.Number 1) 1,
          Token.mk .PLUS ['+'] .Nil 1,
          Token.mk .NUMBER ['2'] (.Number 2) 1,
          Token.mk .STAR ['*'] .Nil 1,
          Token.mk .NUMBER ['3'] (.Number 3) 1,
          Token.mk .EOF [] .Nil 1], 5⟩) :=
  ⟨by decide, rfl, rfl⟩

/-- C8: claimed — parsing the tokens scanned from `(1 + 2` raises a
ParseError referencing the missing `)` at the line of the final token.  The
code violates the claim: the scanner drops the trailing `2` (first
conjunct), so the parser instead dies with the expected-expression
ParseError at EOF (second conjunct); on the full token sequence the parser
does raise exactly the claimed missing-`)` ParseError at the final (EOF,
line 1) token (third conjunct). -/
theorem C8_unterminated_group_error_shifted :
    Scanner.scan_tokens 99 (Scanner.new srcGroup) =
      .ok ([Token.mk .LEFT_PAREN ['('] .Nil 1,
            Token.mk .NUMBER ['1'] (.Number 1) 1,
            Token.mk .PLUS ['+'] .Nil 1,
            Token.mk .EOF [] .Nil 1],
        ⟨srcGroup,
          [Token.mk .LEFT_PAREN ['('] .Nil 1,
           Token.mk .NUMBER ['1'] (.Number 1) 1,
           Token.mk .PLUS ['+'] .Nil 1,
           Token.mk .EOF [] .Nil 1], 4, 5, 1, []⟩) ∧
    Parser.parse_expression 99
      [Token.mk .LEFT_PAREN ['('] .Nil 1,
       Token.mk .NUMBER ['1'] (.Number 1) 1,
       Token.mk .PLUS ['+'] .Nil 1,
       Token.mk .EOF [] .Nil 1] =
      .err (ParseError.mk (Token.mk .EOF [] .Nil 1)
        ("expected expression").toList) ∧
    Parser.parse_expression 99
      [Token.mk .LEFT_PAREN ['('] .Nil 1,
       Token.mk .NUMBER ['1'] (.Number 1) 1,
       Token.mk .PLUS ['+'] .Nil 1,
       Token.mk .NUMBER ['2'] (.Number 2) 1,
       Token.mk .EOF [] .Nil 1] =
      .err (ParseError.mk (Token.mk .EOF [] .Nil 1)
        ("Expect \x27)\x27 after expression.").toList) :=
  ⟨by decide, rfl, rfl⟩

/-- C10: on multi-byte input the character-counting cursor and the
byte-based slicing disagree and the slice lookup of `add_token_complete`
fails: on the six-byte, four-character source (quote, euro sign, quote,
bang) the scan runs as follows.  The string literal is consumed (its own
literal slice `source[1..2]` also fails silently); at the bang (character
offset 3, a byte offset inside the euro sign), `match_token` for `=` finds
`is_at_end` false — the byte count is still ahead of the character cursor —
but `chars().nth(4)` is `None`, so its `if let` falls through to
`current += 1; return true` and a BANG_EQUAL is recognized at offsets 3..5.
The lookup `get(3..5)` in `add_token_complete` starts mid-character and
returns `None` (second conjunct), so the recognized lexeme produces no token
and no reported error: the scan returns `[EOF]` only, with the error list
empty — a token is lost from the output without the failure flag being set,
exactly as claimed. -/
theorem C10_multibyte_silent_token_loss :
    Scanner.scan_tokens 99 (Scanner.new srcQuotedEuroBang) =
      .ok ([Token.mk .EOF [] .Nil 1],
        ⟨srcQuotedEuroBang, [Token.mk .EOF [] .Nil 1], 3, 5, 1, []⟩) ∧
    stringGet srcQuotedEuroBang 3 5 = none := by
  decide

/-! ### Scan invariants: lexeme provenance (C5) and line monotonicity (C6) -/

/-- Invariant carried through the scan: (i) token lines are adjacent-ordered
and bounded by the current `line`; (ii) every non-EOF token's lexeme is an
exact byte substring of the source. -/
def ScanInv (s : Scanner) : Prop :=
  List.Chain' (fun a b => a ≤ b) (s.tokens.map Token.line ++ [s.line]) ∧
  ∀ t ∈ s.tokens, t.token_type ≠ TokenType.EOF →
    ∃ a b, stringGet s.source a b = some t.lexeme

/-- One scanner step preserves the source and the invariant. -/
def Pres (s s2 : Scanner) : Prop :=
  s2.source = s.source ∧ (ScanInv s → ScanInv s2)

theorem Pres.rfl (s : Scanner) : Pres s s := ⟨Eq.refl _, id⟩

theorem Pres.trans {s1 s2 s3 : Scanner} (h1 : Pres s1 s2) (h2 : Pres s2 s3) :
    Pres s1 s3 :=
  ⟨h2.1.trans h1.1, fun hi => h2.2 (h1.2 hi)⟩

theorem pres_fields {s s2 : Scanner} (h1 : s2.source = s.source)
    (h2 : s2.tokens = s.tokens) (h3 : s2.line = s.line) : Pres s s2 := by
  refine ⟨h1, fun hi => ⟨?_, ?_⟩⟩
  · rw [h2, h3]; exact hi.1
  · intro t ht hne
    rw [h1]
    exact hi.2 t (h2 ▸ ht) hne

theorem chain_snoc_mono {l : List Nat} {a b : Nat} (hab : a ≤ b)
    (h : List.Chain' (fun x y => x ≤ y) (l ++ [a])) :
    List.Chain' (fun x y => x ≤ y) (l ++ [b]) := by
  rcases List.chain'_append.mp h with ⟨h1, _, h3⟩
  refine List.chain'_append.mpr ⟨h1, List.chain'_singleton b, ?_⟩
  intro x hx y hy
  simp only [List.head?_cons, Option.mem_def, Option.some.injEq] at hy
  subst hy
  exact le_trans (h3 x hx a (by simp)) hab

theorem chain_snoc_push {l : List Nat} {a b : Nat} (hab : a ≤ b)
    (h : List.Chain' (fun x y => x ≤ y) (l ++ [a])) :
    List.Chain' (fun x y => x ≤ y) ((l ++ [a]) ++ [b]) := by
  refine List.chain'_append.mpr ⟨h, List.chain'_singleton b, ?_⟩
  intro x hx y hy
  simp only [List.head?_cons, Option.mem_def, Option.some.injEq] at hy
  subst hy
  rw [List.getLast?_concat, Option.mem_def, Option.some.injEq] at hx
  subst hx
  exact hab

theorem pres_line_succ (s : Scanner) : Pres s { s with line := s.line + 1 } := by
  refine ⟨Eq.refl _, fun hi => ⟨?_, fun t ht hne => hi.2 t ht hne⟩⟩
  exact chain_snoc_mono (Nat.le_succ _) hi.1

theorem pres_error (s : Scanner) (l : Nat) (m : Str) :
    Pres s (lox_error s l m) :=
  pres_fields (Eq.refl _) (Eq.refl _) (Eq.refl _)

theorem pres_add_token_complete (s : Scanner) (tt : TokenType) (lit : Literal) :
    Pres s (Scanner.add_token_complete s tt lit) := by
  unfold Scanner.add_token_complete
  cases hg : stringGet s.source s.start s.current with
  | none => exact Pres.rfl s
  | some text =>
    refine ⟨Eq.refl _, fun hi => ⟨?_, ?_⟩⟩
    · simp only [List.map_append, List.map_cons, List.map_nil]
      exact chain_snoc_push (Nat.le_refl _) hi.1
    · intro t ht hne
      rcases List.mem_append.mp ht with hmem | hmem
      · exact hi.2 t hmem hne
      · rw [List.mem_singleton] at hmem
        subst hmem
        exact ⟨s.start, s.current, hg⟩

theorem pres_append_eof (s : Scanner) :
    Pres s { s with tokens := s.tokens ++ [Token.mk .EOF [] .Nil s.line] } := by
  refine ⟨Eq.refl _, fun hi => ⟨?_, ?_⟩⟩
  · simp only [List.map_append, List.map_cons, List.map_nil]
    exact chain_snoc_push (Nat.le_refl _) hi.1
  · intro t ht hne
    rcases List.mem_append.mp ht with hmem | hmem
    · exact hi.2 t hmem hne
    · rw [List.mem_singleton] at hmem
      subst hmem
      exact absurd (Eq.refl _) hne

theorem advance_pres {s : Scanner} {r : Char × Scanner}
    (h : Scanner.advance s = .ok r) : Pres s r.2 := by
  unfold Scanner.advance at h
  cases hg : s.source.get? s.current with
  | none => rw [hg] at h; simp at h
  | some c =>
    rw [hg] at h
    cases Res.ok.inj h
    exact pres_fields (Eq.refl _) (Eq.refl _) (Eq.refl _)

theorem match_token_pres (s : Scanner) (e : Char) :
    Pres s (Scanner.match_token s e).2 := by
  unfold Scanner.match_token
  split
  · exact Pres.rfl s
  · split
    · split
      · exact Pres.rfl s
      · exact pres_fields (Eq.refl _) (Eq.refl _) (Eq.refl _)
    · exact pres_fields (Eq.refl _) (Eq.refl _) (Eq.refl _)

theorem consumeWhile_pres (p : Char → Bool) :
    ∀ f s s2, Scanner.consumeWhile p f s = .ok s2 → Pres s s2 := by
  intro f
  induction f with
  | zero =>
    intro s s2 h
    simp only [Scanner.consumeWhile] at h
    cases hp : Scanner.peek s with
    | ok c =>
      rw [hp] at h
      simp only [Res.bind_ok] at h
      split at h
      · simp at h
      · cases Res.ok.inj h
        exact Pres.rfl s
    | panicked m => rw [hp] at h; simp at h
    | diverge => rw [hp] at h; simp at h
  | succ g ih =>
    intro s s2 h
    simp only [Scanner.consumeWhile] at h
    cases hp : Scanner.peek s with
    | ok c =>
      rw [hp] at h
      simp only [Res.bind_ok] at h
      split at h
      · cases ha : Scanner.advance s with
        | ok r =>
          rw [ha] at h
          simp only [Res.bind_ok] at h
          exact Pres.trans (advance_pres ha) (ih _ _ h)
        | panicked m => rw [ha] at h; simp at h
        | diverge => rw [ha] at h; simp at h
      · cases Res.ok.inj h
        exact Pres.rfl s
    | panicked m => rw [hp] at h; simp at h
    | diverge => rw [hp] at h; simp at h

theorem stringLoop_pres :
    ∀ f s s2, Scanner.stringLoop f s = .ok s2 → Pres s s2 := by
  intro f
  induction f with
  | zero =>
    intro s s2 h
    simp only [Scanner.stringLoop] at h
    cases hp : Scanner.peek s with
    | ok c =>
      rw [hp] at h
      simp only [Res.bind_ok] at h
      split at h
      · simp at h
      · cases Res.ok.inj h
        exact Pres.rfl s
    | panicked m => rw [hp] at h; simp at h
    | diverge => rw [hp] at h; simp at h
  | succ g ih =>
    intro s s2 h
    simp only [Scanner.stringLoop] at h
    cases hp : Scanner.peek s with
    | ok c =>
      rw [hp] at h
      simp only [Res.bind_ok] at h
      split at h
      · split at h
        · exact Pres.trans (pres_line_succ s) (ih _ _ h)
        · cases ha : Scanner.advance s with
          | ok r =>
            rw [ha] at h
            simp only [Res.bind_ok] at h
            exact Pres.trans (advance_pres ha) (ih _ _ h)
          | panicked m => rw [ha] at h; simp at h
          | diverge => rw [ha] at h; simp at h
      · cases Res.ok.inj h
        exact Pres.rfl s
    | panicked m => rw [hp] at h; simp at h
    | diverge => rw [hp] at h; simp at h

theorem lineCommentLoop_pres :
    ∀ f s s2, Scanner.lineCommentLoop f s = .ok s2 → Pres s s2 := by
  intro f
  induction f with
  | zero =>
    intro s s2 h
    simp only [Scanner.lineCommentLoop] at h
    cases hp : Scanner.peek s with
    | ok c =>
      rw [hp] at h
      simp only [Res.bind_ok] at h
      split at h
      · simp at h
      · cases Res.ok.inj h
        exact Pres.rfl s
    | panicked m => rw [hp] at h; simp at h
    | diverge => rw [hp] at h; simp at h
  | succ g ih =>
    intro s s2 h
    simp only [Scanner.lineCommentLoop] at h
    cases hp : Scanner.peek s with
    | ok c =>
      rw [hp] at h
      simp only [Res.bind_ok] at h
      split at h
      · cases ha : Scanner.advance s with
        | ok r =>
          rw [ha] at h
          simp only [Res.bind_ok] at h
          exact Pres.trans (advance_pres ha) (ih _ _ h)
        | panicked m => rw [ha] at h; simp at h
        | diverge => rw [ha] at h; simp at h
      · cases Res.ok.inj h
        exact Pres.rfl s
    | panicked m => rw [hp] at h; simp at h
    | diverge => rw [hp] at h; simp at h

theorem blockCommentLoop_pres :
    ∀ f s s2, Scanner.blockCommentLoop f s = .ok s2 → Pres s s2 := by
  intro f
  induction f with
  | zero =>
    intro s s2 h
    simp only [Scanner.blockCommentLoop] at h
    split at h
    · cases Res.ok.inj h
      exact Pres.rfl s
    · simp at h
  | succ g ih =>
    intro s s2 h
    simp only [Scanner.blockCommentLoop] at h
    split at h
    · cases Res.ok.inj h
      exact Pres.rfl s
    · cases hp : Scanner.peek s with
      | ok c =>
        rw [hp] at h
        simp only [Res.bind_ok] at h
        cases hhit : (if c == '*' then
            Res.bind (Scanner.peek_next s) (fun c2 => Res.ok (c2 == '/'))
          else Res.ok false) with
        | ok hit =>
          rw [hhit] at h
          simp only [Res.bind_ok] at h
          split at h
          · cases ha1 : Scanner.advance s with
            | ok r1 =>
              rw [ha1] at h
              simp only [Res.bind_ok] at h
              cases ha2 : Scanner.advance r1.2 with
              | ok r2 =>
                rw [ha2] at h
                simp only [Res.bind_ok] at h
                cases Res.ok.inj h
                exact Pres.trans (advance_pres ha1) (advance_pres ha2)
              | panicked m => rw [ha2] at h; simp at h
              | diverge => rw [ha2] at h; simp at h
            | panicked m => rw [ha1] at h; simp at h
            | diverge => rw [ha1] at h; simp at h
          · cases ha : Scanner.advance
                (if (Scanner.match_token s '\n').1 then
                  { (Scanner.match_token s '\n').2 with
                    line := (Scanner.match_token s '\n').2.line + 1 }
                else (Scanner.match_token s '\n').2) with
            | ok r =>
              rw [ha] at h
              simp only [Res.bind_ok] at h
              refine Pres.trans ?_ (Pres.trans (advance_pres ha) (ih _ _ h))
              split
              · exact Pres.trans (match_token_pres s '\n') (pres_line_succ _)
              · exact match_token_pres s '\n'
            | panicked m => rw [ha] at h; simp at h
            | diverge => rw [ha] at h; simp at h
        | panicked m => rw [hhit] at h; simp at h
        | diverge => rw [hhit] at h; simp at h
      | panicked m => rw [hp] at h; simp at h
      | diverge => rw [hp] at h; simp at h

theorem number_finish_pres {s s2 : Scanner}
    (h : Scanner.number_finish s = .ok s2) : Pres s s2 := by
  unfold Scanner.number_finish at h
  split at h
  · split at h
    · cases Res.ok.inj h
      exact pres_add_token_complete _ _ _
    · exact Res.noConfusion h
  · exact Res.noConfusion h

theorem number_pres {f : Nat} {s s2 : Scanner}
    (h : Scanner.number f s = .ok s2) : Pres s s2 := by
  unfold Scanner.number at h
  obtain ⟨sA, h1, h⟩ := Res.bind_ok_inv h
  obtain ⟨c, h2, h⟩ := Res.bind_ok_inv h
  obtain ⟨pk, h3, h⟩ := Res.bind_ok_inv h
  refine Pres.trans (consumeWhile_pres _ f s sA h1) ?_
  split at h
  · obtain ⟨r, h4, h⟩ := Res.bind_ok_inv h
    obtain ⟨sB, h5, h⟩ := Res.bind_ok_inv h
    exact Pres.trans (advance_pres h4)
      (Pres.trans (consumeWhile_pres _ f r.2 sB h5) (number_finish_pres h))
  · exact number_finish_pres h

theorem identifier_pres {f : Nat} {s s2 : Scanner}
    (h : Scanner.identifier f s = .ok s2) : Pres s s2 := by
  unfold Scanner.identifier at h
  obtain ⟨sA, h1, h⟩ := Res.bind_ok_inv h
  refine Pres.trans (consumeWhile_pres _ f s sA h1) ?_
  repeat' split at h
  all_goals
    first
    | exact Res.noConfusion h
    | (cases Res.ok.inj h; exact pres_add_token_complete _ _ _)

theorem string_finish_pres {s s2 : Scanner}
    (h : Scanner.string_finish s = .ok s2) : Pres s s2 := by
  unfold Scanner.string_finish at h
  split at h
  · cases Res.ok.inj h
    exact pres_error s s.line _
  · obtain ⟨r, ha, h⟩ := Res.bind_ok_inv h
    refine Pres.trans (advance_pres ha) ?_
    split at h
    · cases Res.ok.inj h
      exact pres_add_token_complete _ _ _
    · cases Res.ok.inj h
      exact Pres.rfl _

theorem string_pres {f : Nat} {s s2 : Scanner}
    (h : Scanner.string f s = .ok s2) : Pres s s2 := by
  unfold Scanner.string at h
  obtain ⟨sA, h1, h⟩ := Res.bind_ok_inv h
  exact Pres.trans (stringLoop_pres f s sA h1) (string_finish_pres h)

theorem twoCharOp_pres {s s2 : Scanner} {two one : TokenType}
    (h : Scanner.twoCharOp s two one = .ok s2) : Pres s s2 := by
  unfold Scanner.twoCharOp at h
  cases Res.ok.inj h
  exact Pres.trans (match_token_pres s '=') (pres_add_token_complete _ _ _)

theorem match_token_pres_eq {s s1 : Scanner} {e : Char} {b : Bool}
    (h : Scanner.match_token s e = (b, s1)) : Pres s s1 := by
  have hp := match_token_pres s e
  rw [h] at hp
  exact hp

theorem slashCase_pres {f : Nat} {s s2 : Scanner}
    (h : Scanner.slashCase f s = .ok s2) : Pres s s2 := by
  unfold Scanner.slashCase at h
  split at h
  · exact Pres.trans (match_token_pres s '/') (lineCommentLoop_pres f _ s2 h)
  · split at h
    · exact Pres.trans (match_token_pres s '/')
        (Pres.trans (match_token_pres _ '*') (blockCommentLoop_pres f _ s2 h))
    · cases Res.ok.inj h
      exact Pres.trans (match_token_pres s '/')
        (Pres.trans (match_token_pres _ '*') (pres_add_token_complete _ _ _))

theorem scan_token_pres {f : Nat} {s s2 : Scanner}
    (h : Scanner.scan_token f s = .ok s2) : Pres s s2 := by
  unfold Scanner.scan_token at h
  obtain ⟨r, ha, h⟩ := Res.bind_ok_inv h
  refine Pres.trans (advance_pres ha) ?_
  split at h
  all_goals
    first
    | exact twoCharOp_pres h
    | exact slashCase_pres h
    | exact string_pres h
    | (cases Res.ok.inj h; exact pres_add_token_complete _ _ _)
    | (cases Res.ok.inj h; exact pres_line_succ _)
    | (cases Res.ok.inj h; exact Pres.rfl _)
    | (split at h
       · exact number_pres h
       · split at h
         · exact identifier_pres h
         · cases Res.ok.inj h
           exact pres_error _ _ _)

theorem scanLoop_pres :
    ∀ f s s2, Scanner.scanLoop f s = .ok s2 →
      Pres s s2 ∧ Scanner.is_at_end s2 = true := by
  intro f
  induction f with
  | zero =>
    intro s s2 h
    simp only [Scanner.scanLoop] at h
    split at h
    · cases Res.ok.inj h
      exact ⟨Pres.rfl s, by assumption⟩
    · exact Res.noConfusion h
  | succ g ih =>
    intro s s2 h
    simp only [Scanner.scanLoop] at h
    split at h
    · cases Res.ok.inj h
      exact ⟨Pres.rfl s, by assumption⟩
    · obtain ⟨s1, hst, h⟩ := Res.bind_ok_inv h
      obtain ⟨hp, he⟩ := ih _ _ h
      refine ⟨?_, he⟩
      refine Pres.trans ?_ (Pres.trans (scan_token_pres hst) hp)
      exact pres_fields (Eq.refl _) (Eq.refl _) (Eq.refl _)

theorem scan_tokens_spec {f : Nat} {s : Scanner} {toks : List Token}
    {s2 : Scanner} (h : Scanner.scan_tokens f s = .ok (toks, s2)) :
    toks = s2.tokens ∧ s2.source = s.source ∧ Scanner.is_at_end s2 = true ∧
      (ScanInv s → ScanInv s2) := by
  unfold Scanner.scan_tokens at h
  obtain ⟨s1, hl, h⟩ := Res.bind_ok_inv h
  obtain ⟨hp, he⟩ := scanLoop_pres f s s1 hl
  have h2 := Res.ok.inj h
  have ht : s1.tokens ++ [Token.mk .EOF [] .Nil s1.line] = toks :=
    congrArg Prod.fst h2
  have hs : ({ s1 with tokens := s1.tokens ++ [Token.mk .EOF [] .Nil s1.line] }
      : Scanner) = s2 := congrArg Prod.snd h2
  subst hs
  refine ⟨ht.symm, ?_, he, ?_⟩
  · exact hp.1
  · intro hi
    exact (Pres.trans hp (pres_append_eof s1)).2 hi

/-- The invariant holds at a fresh scanner. -/
theorem scanInv_new (src : Str) : ScanInv (Scanner.new src) := by
  constructor
  · simp [Scanner.new]
  · intro t ht hne
    simp [Scanner.new] at ht

/-- C5: for every produced token other than EOF, the lexeme is exactly the
byte substring of the source between the `start` and `current` offsets at
which the token was recognized.  First part: at the moment
`add_token_complete` captures a token, its lexeme is exactly
`source[start..current]`.  Second part: consequently every non-EOF token in a
returned sequence is an exact contiguous byte substring of the scanned
source.  (The offsets are character counts used as byte offsets; on multi-byte
input the slice may fail and the token is simply not produced — see C10 — so
every token that IS produced satisfies the round-trip.) -/
theorem C5_lexeme_roundtrip :
    (∀ (s : Scanner) (tt : TokenType) (lit : Literal) (txt : Str),
      stringGet s.source s.start s.current = some txt →
        (Scanner.add_token_complete s tt lit).tokens =
          s.tokens ++ [Token.mk tt txt lit s.line]) ∧
    (∀ (fuel : Nat) (src : Str) (toks : List Token) (s2 : Scanner),
      Scanner.scan_tokens fuel (Scanner.new src) = .ok (toks, s2) →
        ∀ t ∈ toks, t.token_type ≠ TokenType.EOF →
          ∃ a b, stringGet src a b = some t.lexeme) := by
  constructor
  · intro s tt lit txt hg
    unfold Scanner.add_token_complete
    rw [hg]
  · intro fuel src toks s2 h t ht hne
    obtain ⟨htoks, hsrc, _, hinv⟩ := scan_tokens_spec h
    have hi := hinv (scanInv_new src)
    have := hi.2 t (htoks ▸ ht) hne
    rwa [hsrc] at this

/-- C5 witness: both parts applied at concrete inputs — capturing a PLUS
token at offsets 0..1 of `+x`, and the scan of `+x`, whose PLUS token's
lexeme is an exact byte substring of the source. -/
theorem C5_lexeme_roundtrip_witness :
    (Scanner.add_token_complete ⟨srcPlusX, [], 0, 1, 1, []⟩ .PLUS .Nil).tokens =
      [Token.mk .PLUS ['+'] .Nil 1] ∧
    ∃ a b, stringGet srcPlusX a b = some ['+'] :=
  ⟨C5_lexeme_roundtrip.1 ⟨srcPlusX, [], 0, 1, 1, []⟩ .PLUS .Nil ['+'] (by decide),
   C5_lexeme_roundtrip.2 99 srcPlusX
     [Token.mk .PLUS ['+'] .Nil 1, Token.mk .EOF [] .Nil 1]
     ⟨srcPlusX, [Token.mk .PLUS ['+'] .Nil 1, Token.mk .EOF [] .Nil 1],
       0, 1, 1, []⟩
     (by decide) (Token.mk .PLUS ['+'] .Nil 1) (by decide) (by decide)⟩

/-- C6: in every token sequence returned by `scan_tokens` (scanning a source
from a fresh scanner), the `line` field is monotonically non-decreasing:
every earlier token's line is at most every later token's line. -/
theorem C6_line_monotone (fuel : Nat) (src : Str) (toks : List Token)
    (s2 : Scanner) (h : Scanner.scan_tokens fuel (Scanner.new src) = .ok (toks, s2)) :
    List.Pairwise (fun t u => t.line ≤ u.line) toks := by
  obtain ⟨htoks, _, _, hinv⟩ := scan_tokens_spec h
  have hi := hinv (scanInv_new src)
  have hc : List.Chain' (fun a b => a ≤ b) (s2.tokens.map Token.line) :=
    (List.chain'_append.mp hi.1).1
  have hp : List.Pairwise (fun a b => a ≤ b) (s2.tokens.map Token.line) :=
    List.chain'_iff_pairwise.mp hc
  rw [htoks]
  exact (List.pairwise_map).mp hp

/-- C6 witness: the theorem applied to the scan of `+x`. -/
theorem C6_line_monotone_witness :
    List.Pairwise (fun t u => t.line ≤ u.line)
      [Token.mk .PLUS ['+'] .Nil 1, Token.mk .EOF [] .Nil 1] :=
  C6_line_monotone 99 srcPlusX
    [Token.mk .PLUS ['+'] .Nil 1, Token.mk .EOF [] .Nil 1]
    ⟨srcPlusX, [Token.mk .PLUS ['+'] .Nil 1, Token.mk .EOF [] .Nil 1],
      0, 1, 1, []⟩
    (by decide)

/-- C9: `scan_tokens` is not idempotent on a `Scanner` value: the token
vector persists in the state, and after a first call has returned, a second
call (with any fuel) finds the cursor already past the end test, scans
nothing, pushes one more EOF token, and returns the first call's entire
result followed by that extra EOF. -/
theorem C9_second_scan_appends_eof (f1 f2 : Nat) (st : Scanner)
    (toks : List Token) (st2 : Scanner)
    (h : Scanner.scan_tokens f1 st = .ok (toks, st2)) :
    Scanner.scan_tokens f2 st2 =
      .ok (toks ++ [Token.mk .EOF [] .Nil st2.line],
        { st2 with tokens := toks ++ [Token.mk .EOF [] .Nil st2.line] }) := by
  obtain ⟨htoks, _, he, _⟩ := scan_tokens_spec h
  have hl : Scanner.scanLoop f2 st2 = .ok st2 := by
    cases f2 <;> simp only [Scanner.scanLoop] <;> rw [he] <;> simp
  unfold Scanner.scan_tokens
  rw [hl]
  simp only [Res.bind_ok]
  rw [htoks]

/-- C9 witness: the theorem applied to the scan of `+x`; the second call
returns PLUS, EOF, EOF. -/
theorem C9_second_scan_appends_eof_witness :
    Scanner.scan_tokens 7
      ⟨srcPlusX, [Token.mk .PLUS ['+'] .Nil 1, Token.mk .EOF [] .Nil 1],
        0, 1, 1, []⟩ =
      .ok ([Token.mk .PLUS ['+'] .Nil 1, Token.mk .EOF [] .Nil 1,
            Token.mk .EOF [] .Nil 1],
        ⟨srcPlusX, [Token.mk .PLUS ['+'] .Nil 1, Token.mk .EOF [] .Nil 1,
          Token.mk .EOF [] .Nil 1], 0, 1, 1, []⟩) :=
  C9_second_scan_appends_eof 99 7 (Scanner.new srcPlusX)
    [Token.mk .PLUS ['+'] .Nil 1, Token.mk .EOF [] .Nil 1]
    ⟨srcPlusX, [Token.mk .PLUS ['+'] .Nil 1, Token.mk .EOF [] .Nil 1],
      0, 1, 1, []⟩
    (by decide)
